import Mathlib

/-!
Verification of the envelope-encryption engine
(`packages/crypto/src/encryption.ts`).

The engine is embedded shallowly:

* byte buffers are `List Nat` with an explicit `< 256` bound where it
  matters;
* the AES-256-GCM primitive (from `node:crypto`, external to the
  repository) is modelled in its structural shape: a CTR keystream XORed
  into the plaintext plus an authentication tag computed over the
  ciphertext, both abstract functions packaged in the `GCM` structure
  together with their length/byte laws;
* randomness (`crypto.randomBytes`, `crypto.randomUUID`) and the clock
  are passed explicitly through an `Entropy` record;
* `JSON.stringify` / `JSON.parse` (platform builtins) are modelled by a
  `Json` value type with an executable printer and parser;
* thrown `Error`s become an explicit `CryptoError` inductive returned
  through `Except`.
-/

namespace Mirfa

/-- Byte sequences. Well-formed buffers have every entry below 256. -/
abbrev Bytes := List Nat

/-- `const NONCE_LENGTH = 12`. -/
def NONCE_LENGTH : Nat := 12

/-- `const TAG_LENGTH = 16`. -/
def TAG_LENGTH : Nat := 16

/-- `const KEY_LENGTH = 32`. -/
def KEY_LENGTH : Nat := 32

/-- Lower-case hex digit for a nibble, as produced by `Buffer.toString('hex')`. -/
def hexDigitChar (n : Nat) : Char :=
  match n with
  | 0 => '0' | 1 => '1' | 2 => '2' | 3 => '3' | 4 => '4'
  | 5 => '5' | 6 => '6' | 7 => '7' | 8 => '8' | 9 => '9'
  | 10 => 'a' | 11 => 'b' | 12 => 'c' | 13 => 'd' | 14 => 'e'
  | _ => 'f'

/-- Value of a hex digit, accepting both cases (the `[0-9a-fA-F]`
class), computed from the character code. -/
def hexVal (c : Char) : Option Nat :=
  let n := c.toNat
  if 48 ≤ n ∧ n ≤ 57 then some (n - 48)
  else if 97 ≤ n ∧ n ≤ 102 then some (n - 87)
  else if 65 ≤ n ∧ n ≤ 70 then some (n - 55)
  else none

/-- A character matched by the `[0-9a-fA-F]` class. -/
def isHexDigit (c : Char) : Bool := (hexVal c).isSome

/-- Character list of the lower-case hex rendering of a buffer. -/
def hexEncodeChars : Bytes → List Char
  | [] => []
  | b :: bs => hexDigitChar (b / 16) :: hexDigitChar (b % 16) :: hexEncodeChars bs

/-- `Buffer.toString('hex')`: lower-case hex rendering of a buffer. -/
def hexEncode (bs : Bytes) : String := String.mk (hexEncodeChars bs)

/-- Byte list decoded from hex characters; decoding stops at the first
incomplete or invalid pair, as `Buffer.from(_, 'hex')` does. -/
def hexDecodeChars : List Char → Bytes
  | c1 :: c2 :: rest =>
    match hexVal c1, hexVal c2 with
    | some hi, some lo => (16 * hi + lo) :: hexDecodeChars rest
    | _, _ => []
  | _ => []

/-- `Buffer.from(hex, 'hex')`. -/
def hexDecode (s : String) : Bytes := hexDecodeChars s.data

/-- The test `/^[0-9a-fA-F]+$/.test hex`: nonempty and hex digits only. -/
def isHexString (s : String) : Bool := !(s.data.isEmpty) && s.data.all isHexDigit

/-- The distinguishable error kinds thrown by `encryption.ts`; each
constructor corresponds to one `throw new Error(...)` site. -/
inductive CryptoError where
  /-- The `Invalid hex string for <fieldName>` error. -/
  | invalidHexFor (fieldName : String)
  /-- The `Invalid length for <fieldName>: expected ... bytes, got ...`
  error (the raw hex length is recorded; the message renders it halved). -/
  | invalidLengthFor (fieldName : String) (expectedByteLength hexLength : Nat)
  /-- `Invalid Master Key length: expected 32 bytes`. -/
  | invalidMasterKeyLength
  /-- `Failed to unwrap DEK: potential tampering or invalid Master Key`. -/
  | unwrapFailed
  /-- `Failed to decrypt payload: potential tampering or invalid DEK`. -/
  | decryptFailed
deriving DecidableEq, Repr

/-- The format errors raised by field validation, as opposed to
configuration or tamper errors. -/
def CryptoError.isFormatError : CryptoError → Bool
  | .invalidHexFor _ => true
  | .invalidLengthFor _ _ _ => true
  | _ => false

/-- `validateHex` from `encryption.ts`: hex-pattern check first, then the
exact-length check. -/
def validateHex (hex : String) (expectedByteLength : Nat) (fieldName : String) :
    Except CryptoError Unit :=
  if !(isHexString hex) then
    .error (.invalidHexFor fieldName)
  else if hex.length ≠ expectedByteLength * 2 then
    .error (.invalidLengthFor fieldName expectedByteLength hex.length)
  else
    .ok ()

/-- Pointwise XOR, truncating to the shorter buffer (CTR-mode combination). -/
def xorBytes (a b : Bytes) : Bytes := List.zipWith (fun x y => x ^^^ y) a b

/-- Structural model of the AES-256-GCM primitive of `node:crypto`:
a CTR keystream XORed into the plaintext plus an authentication tag
computed from key, nonce and ciphertext, together with the length and
byte-range laws every real instantiation satisfies. -/
structure GCM where
  stream : Bytes → Bytes → Nat → Bytes
  mac : Bytes → Bytes → Bytes → Bytes
  stream_length : ∀ key nonce len, (stream key nonce len).length = len
  stream_bytes : ∀ key nonce len, ∀ b ∈ stream key nonce len, b < 256
  mac_length : ∀ key nonce ct, (mac key nonce ct).length = TAG_LENGTH
  mac_bytes : ∀ key nonce ct, ∀ b ∈ mac key nonce ct, b < 256

/-- `createCipheriv(... ).update/final/getAuthTag`: ciphertext and tag. -/
def GCM.enc (A : GCM) (key nonce pt : Bytes) : Bytes × Bytes :=
  let ct := xorBytes pt (A.stream key nonce pt.length)
  (ct, A.mac key nonce ct)

/-- `createDecipheriv(...).setAuthTag/update/final`: `none` models the
authentication failure thrown by `final()`. -/
def GCM.dec (A : GCM) (key nonce ct tag : Bytes) : Option Bytes :=
  if tag = A.mac key nonce ct then
    some (xorBytes ct (A.stream key nonce ct.length))
  else
    none

/-- Modelled from the spec: JSON values handled by the platform's
`JSON.stringify` / `JSON.parse` (builtins, not part of `src/`).
Numbers are restricted to integers; floating-point formatting is out of
scope of this embedding. -/
inductive Json where
  | jnull
  | jbool (b : Bool)
  | jnum (n : Int)
  | jstr (s : String)
  | jarr (elems : List Json)
  | jobj (fields : List (String × Json))
deriving Repr

/-- Escaping applied by `JSON.stringify` to quote and backslash
characters inside string values (control-character escapes are outside
the payloads this embedding handles). -/
def jsonEscapeChars : List Char → List Char
  | [] => []
  | c :: cs =>
    if c = '"' ∨ c = '\\' then '\\' :: c :: jsonEscapeChars cs
    else c :: jsonEscapeChars cs

mutual

/-- Modelled from the spec: `JSON.stringify` (platform builtin). -/
def jsonStringify : Json → String
  | .jnull => "null"
  | .jbool true => "true"
  | .jbool false => "false"
  | .jnum n => toString n
  | .jstr s => String.mk ('"' :: jsonEscapeChars s.data ++ ['"'])
  | .jarr elems => "[" ++ String.intercalate "," (jsonStringifyList elems) ++ "]"
  | .jobj fields =>
      String.mk (Char.ofNat 123 :: (String.intercalate "," (jsonStringifyFields fields)).data
        ++ [Char.ofNat 125])

/-- Renderings of the elements of a JSON array. -/
def jsonStringifyList : List Json → List String
  | [] => []
  | x :: xs => jsonStringify x :: jsonStringifyList xs

/-- Renderings of the members of a JSON object. -/
def jsonStringifyFields : List (String × Json) → List String
  | [] => []
  | (k, v) :: fs =>
      (String.mk ('"' :: jsonEscapeChars k.data ++ ['"', ':']) ++ jsonStringify v)
        :: jsonStringifyFields fs

end

/-- JSON insignificant whitespace. -/
def isJsonWs (c : Char) : Bool := c = ' ' ∨ c = '\n' ∨ c = '\t' ∨ c = '\r'

/-- Drop leading JSON whitespace. -/
def skipWs : List Char → List Char
  | [] => []
  | c :: rest => if isJsonWs c then skipWs rest else c :: rest

/-- Decimal digit streak at the front of the input. -/
def takeDigits : List Char → List Char × List Char
  | [] => ([], [])
  | c :: rest =>
    if '0' ≤ c ∧ c ≤ '9' then
      let rec' := takeDigits rest
      (c :: rec'.1, rec'.2)
  else ([], c :: rest)

/-- Numeric value of a decimal digit list. -/
def digitsToNat : List Char → Nat
  | [] => 0
  | ds => ds.foldl (fun acc c => acc * 10 + (c.toNat - 48)) 0

/-- Body of a JSON string after the opening quote, with unescaping. -/
def parseStringBody (fuel : Nat) (input : List Char) : Option (List Char × List Char) :=
  match fuel with
  | 0 => none
  | fuel + 1 =>
    match input with
    | [] => none
    | '"' :: rest => some ([], rest)
    | '\\' :: c :: rest =>
      match parseStringBody fuel rest with
      | some (body, rem) => some (c :: body, rem)
      | none => none
    | c :: rest =>
      match parseStringBody fuel rest with
      | some (body, rem) => some (c :: body, rem)
      | none => none

mutual

/-- Modelled from the spec: `JSON.parse` (platform builtin), as a
fuelled recursive-descent parser returning the value and the unconsumed
input. -/
def parseValue (fuel : Nat) (input : List Char) : Option (Json × List Char) :=
  match fuel with
  | 0 => none
  | fuel + 1 =>
    match skipWs input with
    | 'n' :: 'u' :: 'l' :: 'l' :: rest => some (.jnull, rest)
    | 't' :: 'r' :: 'u' :: 'e' :: rest => some (.jbool true, rest)
    | 'f' :: 'a' :: 'l' :: 's' :: 'e' :: rest => some (.jbool false, rest)
    | '"' :: rest =>
      match parseStringBody fuel rest with
      | some (body, rem) => some (.jstr (String.mk body), rem)
      | none => none
    | '-' :: rest =>
      match takeDigits rest with
      | ([], _) => none
      | (ds, rem) => some (.jnum (-(digitsToNat ds : Int)), rem)
    | '[' :: rest =>
      (match skipWs rest with
       | ']' :: rem => some (.jarr [], rem)
       | other =>
         match parseElements fuel other with
         | some (elems, rem) => some (.jarr elems, rem)
         | none => none)
    | c :: rest =>
      if c = Char.ofNat 123 then
        match skipWs rest with
        | '"' :: afterQuote =>
          (match parseMembers fuel ('"' :: afterQuote) with
           | some (fields, rem) => some (.jobj fields, rem)
           | none => none)
        | other =>
          if other.take 1 = [Char.ofNat 125] then some (.jobj [], other.drop 1)
          else none
      else
        match takeDigits (c :: rest) with
        | ([], _) => none
        | (ds, rem) => some (.jnum (digitsToNat ds : Int), rem)
    | [] => none

/-- Comma-separated JSON values up to the closing bracket. -/
def parseElements (fuel : Nat) (input : List Char) : Option (List Json × List Char) :=
  match fuel with
  | 0 => none
  | fuel + 1 =>
    match parseValue fuel input with
    | none => none
    | some (v, rest) =>
      match skipWs rest with
      | ',' :: more =>
        (match parseElements fuel more with
         | some (vs, rem) => some (v :: vs, rem)
         | none => none)
      | ']' :: rem => some ([v], rem)
      | _ => none

/-- Comma-separated `"key": value` members up to the closing brace. -/
def parseMembers (fuel : Nat) (input : List Char) : Option (List (String × Json) × List Char) :=
  match fuel with
  | 0 => none
  | fuel + 1 =>
    match skipWs input with
    | '"' :: rest =>
      (match parseStringBody fuel rest with
       | none => none
       | some (key, afterKey) =>
         match skipWs afterKey with
         | ':' :: afterColon =>
           (match parseValue fuel afterColon with
            | none => none
            | some (v, rest2) =>
              match skipWs rest2 with
              | ',' :: more =>
                (match parseMembers fuel more with
                 | some (fs, rem) => some ((String.mk key, v) :: fs, rem)
                 | none => none)
              | other =>
                if other.take 1 = [Char.ofNat 125] then
                  some ([(String.mk key, v)], other.drop 1)
                else none)
         | _ => none)
    | _ => none

end

/-- Modelled from the spec: `JSON.parse` on a whole string; fails unless
the remainder is whitespace. -/
def jsonParse (s : String) : Option Json :=
  match parseValue (s.data.length + 1) s.data with
  | some (v, rest) => if skipWs rest = [] then some v else none
  | none => none

/-- Modelled from the spec: `Buffer.from(s, 'utf8')`, for the
single-byte code-point range this embedding handles. -/
def strToBytes (s : String) : Bytes := s.data.map Char.toNat

/-- Modelled from the spec: `buffer.toString('utf8')`, for the
single-byte code-point range this embedding handles. -/
def bytesToStr (bs : Bytes) : String := String.mk (bs.map Char.ofNat)

/-- The random draws and the clock reading consumed by one
`encryptEnvelope` call, passed explicitly: `idBytes` feeds
`crypto.randomUUID`, `dek` is the `crypto.randomBytes(32)` draw of
`generateDEK`, and the two nonces are the `crypto.randomBytes(12)` draws
of `encryptPayload` and `wrapDEK`. -/
structure Entropy where
  idBytes : Bytes
  createdAt : String
  dek : Bytes
  payloadNonce : Bytes
  wrapNonce : Bytes

/-- Well-formedness of an entropy record: the draws have the sizes the
secure random source produces, with byte-range entries. -/
abbrev Entropy.wf (e : Entropy) : Prop :=
  e.idBytes.length = 16 ∧ (∀ b ∈ e.idBytes, b < 256) ∧
  e.dek.length = KEY_LENGTH ∧ (∀ b ∈ e.dek, b < 256) ∧
  e.payloadNonce.length = NONCE_LENGTH ∧ (∀ b ∈ e.payloadNonce, b < 256) ∧
  e.wrapNonce.length = NONCE_LENGTH ∧ (∀ b ∈ e.wrapNonce, b < 256)

/-- RFC 4122 version-4 bit fixing, walking the bytes with their index:
byte 6 keeps its low nibble under version `0100`, byte 8 keeps its low
six bits under variant `10`. -/
def uuidSetBitsAux (i : Nat) : Bytes → Bytes
  | [] => []
  | b :: bs =>
    (if i = 6 then (b &&& 15) ||| 64
     else if i = 8 then (b &&& 63) ||| 128
     else b) :: uuidSetBitsAux (i + 1) bs

/-- RFC 4122 version-4 bit fixing applied by `crypto.randomUUID` to its
16 random bytes. -/
def uuidSetBits (bs : Bytes) : Bytes := uuidSetBitsAux 0 bs

/-- Hyphenated 8-4-4-4-12 rendering of 16 bytes as a UUID string. -/
def uuidFormat (bs : Bytes) : String :=
  let h := hexEncodeChars bs
  String.mk (h.take 8 ++ '-' :: (h.drop 8).take 4 ++ '-' :: (h.drop 12).take 4
    ++ '-' :: (h.drop 16).take 4 ++ '-' :: h.drop 20)

/-- Modelled from the spec: `crypto.randomUUID()` (platform builtin, not
in `src/`): draws 16 random bytes, fixes the version and variant bits,
and formats them as a hyphenated UUID. -/
def randomUUID (r : Bytes) : String := uuidFormat (uuidSetBits (r.take 16))

/-- `generateDEK` from `encryption.ts`: a fresh 32-byte random key; the
`crypto.randomBytes(KEY_LENGTH)` draw is the explicit entropy field. -/
def generateDEK (e : Entropy) : Bytes := e.dek

/-- Return shape of `encryptPayload` (also the `Pick<TxSecureRecord,
'payload_nonce' | 'payload_ct' | 'payload_tag'>` consumed by
`decryptPayload`). -/
structure PayloadEncryption where
  payload_nonce : String
  payload_ct : String
  payload_tag : String
deriving DecidableEq, Repr

/-- Return shape of `wrapDEK` (also the `Pick<TxSecureRecord,
'dek_wrap_nonce' | 'dek_wrapped' | 'dek_wrap_tag'>` consumed by
`unwrapDEK`). -/
structure DekWrapping where
  dek_wrap_nonce : String
  dek_wrapped : String
  dek_wrap_tag : String
deriving DecidableEq, Repr

/-- `encryptPayload` from `encryption.ts`: serialize to UTF-8 JSON,
draw a nonce, AES-256-GCM encrypt under the DEK, hex-encode the parts.
The nonce draw is the explicit `nonce` argument. -/
def encryptPayload (A : GCM) (payload : Json) (dek : Bytes) (nonce : Bytes) :
    PayloadEncryption :=
  let jsonPayload := strToBytes (jsonStringify payload)
  let encrypted := A.enc dek nonce jsonPayload
  { payload_nonce := hexEncode nonce
    payload_ct := hexEncode encrypted.1
    payload_tag := hexEncode encrypted.2 }

/-- `wrapDEK` from `encryption.ts`: reject a master key whose length is
not 32 bytes, then AES-256-GCM encrypt the DEK under the master key.
The nonce draw is the explicit `nonce` argument. -/
def wrapDEK (A : GCM) (dek masterKey : Bytes) (nonce : Bytes) :
    Except CryptoError DekWrapping :=
  if masterKey.length ≠ KEY_LENGTH then
    .error .invalidMasterKeyLength
  else
    let wrapped := A.enc masterKey nonce dek
    .ok { dek_wrap_nonce := hexEncode nonce
          dek_wrapped := hexEncode wrapped.1
          dek_wrap_tag := hexEncode wrapped.2 }

/-- `unwrapDEK` from `encryption.ts`: master-key length check, then
field validation (`dek_wrap_nonce`, `dek_wrap_tag` via `validateHex`,
`dek_wrapped` hex-pattern only), then authenticated decryption whose
failure becomes the unwrap tamper error. -/
def unwrapDEK (A : GCM) (record : DekWrapping) (masterKey : Bytes) :
    Except CryptoError Bytes :=
  if masterKey.length ≠ KEY_LENGTH then
    .error .invalidMasterKeyLength
  else
    match validateHex record.dek_wrap_nonce NONCE_LENGTH "dek_wrap_nonce" with
    | .error e => .error e
    | .ok _ =>
      match validateHex record.dek_wrap_tag TAG_LENGTH "dek_wrap_tag" with
      | .error e => .error e
      | .ok _ =>
        if !(isHexString record.dek_wrapped) then
          .error (.invalidHexFor "dek_wrapped")
        else
          let nonce := hexDecode record.dek_wrap_nonce
          let tag := hexDecode record.dek_wrap_tag
          let encryptedDEK := hexDecode record.dek_wrapped
          match A.dec masterKey nonce encryptedDEK tag with
          | some dek => .ok dek
          | none => .error .unwrapFailed

/-- `decryptPayload` from `encryption.ts`: field validation
(`payload_nonce`, `payload_tag` via `validateHex`, `payload_ct`
hex-pattern only), then authenticated decryption and JSON parsing; both
the authentication failure and the parse failure land in the same
`catch` and become the same decrypt tamper error. -/
def decryptPayload (A : GCM) (record : PayloadEncryption) (dek : Bytes) :
    Except CryptoError Json :=
  match validateHex record.payload_nonce NONCE_LENGTH "payload_nonce" with
  | .error e => .error e
  | .ok _ =>
    match validateHex record.payload_tag TAG_LENGTH "payload_tag" with
    | .error e => .error e
    | .ok _ =>
      if !(isHexString record.payload_ct) then
        .error (.invalidHexFor "payload_ct")
      else
        let nonce := hexDecode record.payload_nonce
        let tag := hexDecode record.payload_tag
        let ciphertext := hexDecode record.payload_ct
        match A.dec dek nonce ciphertext tag with
        | none => .error .decryptFailed
        | some decrypted =>
          match jsonParse (bytesToStr decrypted) with
          | none => .error .decryptFailed
          | some v => .ok v

/-- The `TxSecureRecord` assembled by `encryptEnvelope` (its fields are
the object literal returned there; the type itself lives in
`packages/crypto/src/types.ts`, outside `src/`). -/
structure TxSecureRecord where
  id : String
  partyId : String
  createdAt : String
  payload_nonce : String
  payload_ct : String
  payload_tag : String
  dek_wrap_nonce : String
  dek_wrapped : String
  dek_wrap_tag : String
  alg : String
  mk_version : Nat
deriving DecidableEq, Repr

/-- The payload fields of a record, as picked by `decryptPayload`. -/
def TxSecureRecord.payloadPart (r : TxSecureRecord) : PayloadEncryption :=
  { payload_nonce := r.payload_nonce
    payload_ct := r.payload_ct
    payload_tag := r.payload_tag }

/-- The DEK-wrap fields of a record, as picked by `unwrapDEK`. -/
def TxSecureRecord.dekPart (r : TxSecureRecord) : DekWrapping :=
  { dek_wrap_nonce := r.dek_wrap_nonce
    dek_wrapped := r.dek_wrapped
    dek_wrap_tag := r.dek_wrap_tag }

/-- `encryptEnvelope` from `encryption.ts`: master-key length check
first, then id and timestamp, fresh DEK, payload encryption, DEK
wrapping, and record assembly with the fixed `alg` and `mk_version`. -/
def encryptEnvelope (A : GCM) (partyId : String) (payload : Json)
    (masterKey : Bytes) (e : Entropy) : Except CryptoError TxSecureRecord :=
  if masterKey.length ≠ KEY_LENGTH then
    .error .invalidMasterKeyLength
  else
    let id := randomUUID e.idBytes
    let createdAt := e.createdAt
    let dek := generateDEK e
    let payloadEncryption := encryptPayload A payload dek e.payloadNonce
    match wrapDEK A dek masterKey e.wrapNonce with
    | .error err => .error err
    | .ok dekWrapping =>
      .ok { id := id
            partyId := partyId
            createdAt := createdAt
            payload_nonce := payloadEncryption.payload_nonce
            payload_ct := payloadEncryption.payload_ct
            payload_tag := payloadEncryption.payload_tag
            dek_wrap_nonce := dekWrapping.dek_wrap_nonce
            dek_wrapped := dekWrapping.dek_wrapped
            dek_wrap_tag := dekWrapping.dek_wrap_tag
            alg := "AES-256-GCM"
            mk_version := 1 }

/-- The record `encryptEnvelope` assembles when the master-key check
passes, spelled out field by field. -/
def envelopeRecord (A : GCM) (partyId : String) (payload : Json)
    (masterKey : Bytes) (e : Entropy) : TxSecureRecord :=
  let pb := strToBytes (jsonStringify payload)
  let pe := A.enc e.dek e.payloadNonce pb
  let dw := A.enc masterKey e.wrapNonce e.dek
  { id := randomUUID e.idBytes
    partyId := partyId
    createdAt := e.createdAt
    payload_nonce := hexEncode e.payloadNonce
    payload_ct := hexEncode pe.1
    payload_tag := hexEncode pe.2
    dek_wrap_nonce := hexEncode e.wrapNonce
    dek_wrapped := hexEncode dw.1
    dek_wrap_tag := hexEncode dw.2
    alg := "AES-256-GCM"
    mk_version := 1 }

/-! Concrete instantiation of the abstract cipher, used to evaluate the
engine on explicit inputs. -/

/-- A concrete keystream function satisfying the `GCM` laws. -/
def toyStream (key nonce : Bytes) (len : Nat) : Bytes :=
  (List.range len).map (fun i => (key.sum + 2 * nonce.sum + i) % 256)

/-- A concrete tag function satisfying the `GCM` laws, sensitive to the
key, the nonce, every ciphertext byte and the ciphertext length. -/
def toyMac (key nonce ct : Bytes) : Bytes :=
  (170 + key.sum + 2 * nonce.sum + 3 * ct.sum) % 256
    :: (key.sum + ct.length) % 256
    :: List.replicate 14 0

/-- A concrete `GCM` instance built from `toyStream` and `toyMac`. -/
def toyGCM : GCM where
  stream := toyStream
  mac := toyMac
  stream_length := by
    intro key nonce len
    simp [toyStream]
  stream_bytes := by
    intro key nonce len b hb
    simp only [toyStream, List.mem_map, List.mem_range] at hb
    obtain ⟨i, _, rfl⟩ := hb
    exact Nat.mod_lt _ (by norm_num)
  mac_length := by
    intro key nonce ct
    simp [toyMac, TAG_LENGTH]
  mac_bytes := by
    intro key nonce ct b hb
    simp only [toyMac, List.mem_cons] at hb
    rcases hb with rfl | rfl | hb
    · exact Nat.mod_lt _ (by norm_num)
    · exact Nat.mod_lt _ (by norm_num)
    · have := List.eq_of_mem_replicate hb
      omega

/-- An all-zero 32-byte master key (the happy-path scenario key). -/
def zeroMasterKey : Bytes := List.replicate 32 0

/-- The happy-path payload `\x7b"amount":100,"currency":"USD"\x7d`. -/
def payloadUSD : Json := .jobj [("amount", .jnum 100), ("currency", .jstr "USD")]

/-- A concrete well-formed entropy record (all draws zero). -/
def e0 : Entropy :=
  { idBytes := List.replicate 16 0
    createdAt := "2026-01-01T00:00:00.000Z"
    dek := List.replicate 32 0
    payloadNonce := List.replicate 12 0
    wrapNonce := List.replicate 12 0 }

/-- A second concrete entropy differing from `e0` only in bits of UUID
byte 6 that the version masking discards. -/
def e6 : Entropy :=
  { e0 with idBytes := (List.replicate 16 0).set 6 48 }

/-- A third concrete entropy whose id bytes (after masking), DEK and
nonces all differ from those of `e0`. -/
def e1 : Entropy :=
  { idBytes := List.replicate 16 1
    createdAt := "2026-01-01T00:00:01.000Z"
    dek := List.replicate 32 2
    payloadNonce := List.replicate 12 3
    wrapNonce := List.replicate 12 4 }

/-- The record `encryptEnvelope` produces from `toyGCM`, party
`user_123`, payload `1`, the zero master key and the draws `e0`. -/
def R0 : TxSecureRecord := envelopeRecord toyGCM "user_123" (.jnum 1) zeroMasterKey e0

/-- Upper-casing of a hex string: a stored-field modification that
decodes to the same bytes. -/
def hexUpper (s : String) : String := String.mk (s.data.map Char.toUpper)

/-- The payload fields of `R0` with `payload_tag` modified to its
upper-case spelling. -/
def caseTamperedR0 : PayloadEncryption :=
  { R0.payloadPart with payload_tag := hexUpper R0.payload_tag }

/-- Payload fields whose authenticated decryption under the zero DEK and
zero nonce succeeds with the single byte `0x78` (the letter `x`), which
is not valid JSON. -/
def rBadJson : PayloadEncryption :=
  { payload_nonce := hexEncode (List.replicate 12 0)
    payload_ct := hexEncode [120]
    payload_tag := hexEncode (18 :: 1 :: List.replicate 14 0) }

/-- `rBadJson` with a tag whose decoded bytes differ, so authenticated
decryption fails. -/
def rBadTag : PayloadEncryption :=
  { rBadJson with payload_tag := hexEncode (19 :: 1 :: List.replicate 14 0) }

/-! Supporting lemmas about hex encoding, XOR, and the cipher model. -/

theorem isHexDigit_hexDigitChar (n : Nat) : isHexDigit (hexDigitChar n) = true := by
  unfold hexDigitChar
  split <;> rfl

theorem hexVal_hexDigitChar (n : Nat) (h : n < 16) : hexVal (hexDigitChar n) = some n := by
  interval_cases n <;> rfl

theorem hexEncodeChars_length (bs : Bytes) : (hexEncodeChars bs).length = 2 * bs.length := by
  induction bs with
  | nil => rfl
  | cons b bs ih => simp [hexEncodeChars, ih]; omega

theorem hexEncode_length (bs : Bytes) : (hexEncode bs).length = 2 * bs.length := by
  simp [hexEncode, String.length_mk, hexEncodeChars_length]

theorem mem_hexEncodeChars {c : Char} {bs : Bytes} (h : c ∈ hexEncodeChars bs) :
    isHexDigit c = true := by
  induction bs with
  | nil => simp [hexEncodeChars] at h
  | cons b bs ih =>
    simp only [hexEncodeChars, List.mem_cons] at h
    rcases h with rfl | rfl | h
    · exact isHexDigit_hexDigitChar _
    · exact isHexDigit_hexDigitChar _
    · exact ih h

theorem isHexString_hexEncode {bs : Bytes} (h : bs ≠ []) :
    isHexString (hexEncode bs) = true := by
  have hne : hexEncodeChars bs ≠ [] := by
    cases bs with
    | nil => exact absurd rfl h
    | cons b bs2 => simp [hexEncodeChars]
  simp only [isHexString, hexEncode, Bool.and_eq_true, Bool.not_eq_eq_eq_not, Bool.not_true,
    List.all_eq_true]
  constructor
  · simpa [List.isEmpty_iff] using hne
  · intro c hc
    exact mem_hexEncodeChars hc

theorem hexDecodeChars_hexEncodeChars {bs : Bytes} (h : ∀ b ∈ bs, b < 256) :
    hexDecodeChars (hexEncodeChars bs) = bs := by
  induction bs with
  | nil => rfl
  | cons b bs ih =>
    have hb : b < 256 := h b (by simp)
    have hdiv : b / 16 < 16 := by omega
    have hmod : b % 16 < 16 := Nat.mod_lt _ (by norm_num)
    simp only [hexEncodeChars, hexDecodeChars, hexVal_hexDigitChar _ hdiv,
      hexVal_hexDigitChar _ hmod]
    rw [ih (fun x hx => h x (by simp [hx]))]
    congr 1
    omega

theorem hexDecode_hexEncode {bs : Bytes} (h : ∀ b ∈ bs, b < 256) :
    hexDecode (hexEncode bs) = bs := by
  simpa [hexDecode, hexEncode] using hexDecodeChars_hexEncodeChars h

theorem hexEncode_inj {a b : Bytes} (ha : ∀ x ∈ a, x < 256) (hb : ∀ x ∈ b, x < 256)
    (h : hexEncode a = hexEncode b) : a = b := by
  have := congrArg hexDecode h
  rwa [hexDecode_hexEncode ha, hexDecode_hexEncode hb] at this

theorem validateHex_hexEncode {bs : Bytes} {n : Nat} {f : String}
    (hne : bs ≠ []) (hlen : bs.length = n) :
    validateHex (hexEncode bs) n f = .ok () := by
  simp [validateHex, isHexString_hexEncode hne, hexEncode_length, hlen, Nat.mul_comm]

theorem xorBytes_length (a b : Bytes) : (xorBytes a b).length = min a.length b.length := by
  simp [xorBytes]

theorem xorBytes_lt {a b : Bytes} (ha : ∀ x ∈ a, x < 256) (hb : ∀ x ∈ b, x < 256) :
    ∀ x ∈ xorBytes a b, x < 256 := by
  induction a generalizing b with
  | nil => simp [xorBytes]
  | cons x xs ih =>
    cases b with
    | nil => simp [xorBytes]
    | cons y ys =>
      intro z hz
      simp only [xorBytes, List.zipWith_cons_cons, List.mem_cons] at hz
      rcases hz with rfl | hz
      · have h1 : x < 256 := ha x (by simp)
        have h2 : y < 256 := hb y (by simp)
        have := Nat.xor_lt_two_pow (n := 8) h1 h2
        simpa using this
      · exact ih (fun u hu => ha u (by simp [hu])) (fun u hu => hb u (by simp [hu])) z hz

theorem xorBytes_cancel {a s : Bytes} (h : a.length ≤ s.length) :
    xorBytes (xorBytes a s) s = a := by
  induction a generalizing s with
  | nil => simp [xorBytes]
  | cons x xs ih =>
    cases s with
    | nil => simp at h
    | cons y ys =>
      simp only [xorBytes, List.zipWith_cons_cons]
      rw [Nat.xor_cancel_right]
      have : xorBytes (xorBytes xs ys) ys = xs := ih (by simpa using h)
      simp only [xorBytes] at this
      rw [this]

theorem GCM.enc_ct_length (A : GCM) (key nonce pt : Bytes) :
    (A.enc key nonce pt).1.length = pt.length := by
  simp [GCM.enc, xorBytes_length, A.stream_length]

theorem GCM.enc_ct_bytes (A : GCM) {key nonce pt : Bytes} (h : ∀ b ∈ pt, b < 256) :
    ∀ b ∈ (A.enc key nonce pt).1, b < 256 := by
  simp only [GCM.enc]
  exact xorBytes_lt h (A.stream_bytes key nonce pt.length)

theorem GCM.enc_tag_length (A : GCM) (key nonce pt : Bytes) :
    (A.enc key nonce pt).2.length = TAG_LENGTH := by
  simp only [GCM.enc]
  exact A.mac_length _ _ _

theorem GCM.enc_tag_bytes (A : GCM) (key nonce pt : Bytes) :
    ∀ b ∈ (A.enc key nonce pt).2, b < 256 := by
  simp only [GCM.enc]
  exact A.mac_bytes _ _ _

theorem GCM.dec_enc (A : GCM) (key nonce pt : Bytes) :
    A.dec key nonce (A.enc key nonce pt).1 (A.enc key nonce pt).2 = some pt := by
  have hlen : (xorBytes pt (A.stream key nonce pt.length)).length = pt.length := by
    simp [xorBytes_length, A.stream_length]
  have hcancel :
      xorBytes (xorBytes pt (A.stream key nonce pt.length)) (A.stream key nonce pt.length)
        = pt :=
    xorBytes_cancel (by rw [A.stream_length])
  simp only [GCM.enc, GCM.dec, if_pos rfl, hlen, hcancel, if_true]

theorem bytesToStr_strToBytes (s : String) : bytesToStr (strToBytes s) = s := by
  simp only [bytesToStr, strToBytes, List.map_map]
  have : (Char.ofNat ∘ Char.toNat) = id := by
    funext c
    simp [Char.ofNat_toNat]
  rw [this, List.map_id]

/-! Shape of the record produced on the success path of
`encryptEnvelope`, and what unwrap/decrypt do to it. -/

theorem encryptEnvelope_ok (A : GCM) (partyId : String) (payload : Json)
    {masterKey : Bytes} (e : Entropy) (hmk : masterKey.length = KEY_LENGTH) :
    encryptEnvelope A partyId payload masterKey e =
      .ok (envelopeRecord A partyId payload masterKey e) := by
  simp [encryptEnvelope, wrapDEK, encryptPayload, generateDEK, hmk, envelopeRecord]

theorem unwrapDEK_envelope (A : GCM) (partyId : String) (payload : Json)
    {masterKey : Bytes} {e : Entropy} (hmk : masterKey.length = KEY_LENGTH)
    (he : e.wf) :
    unwrapDEK A (envelopeRecord A partyId payload masterKey e).dekPart masterKey
      = .ok e.dek := by
  obtain ⟨_, _, hdl, hdb, _, _, hwl, hwb⟩ := he
  have hvn : validateHex (hexEncode e.wrapNonce) NONCE_LENGTH "dek_wrap_nonce" = .ok () :=
    validateHex_hexEncode (by intro h; rw [h] at hwl; simp [NONCE_LENGTH] at hwl) hwl
  have hvt : validateHex (hexEncode (A.enc masterKey e.wrapNonce e.dek).2) TAG_LENGTH
      "dek_wrap_tag" = .ok () := by
    apply validateHex_hexEncode
    · intro h
      have hl := A.enc_tag_length masterKey e.wrapNonce e.dek
      rw [h] at hl
      simp [TAG_LENGTH] at hl
    · exact A.enc_tag_length _ _ _
  have hctlen : (A.enc masterKey e.wrapNonce e.dek).1.length = KEY_LENGTH := by
    rw [A.enc_ct_length, hdl]
  have hcthex : isHexString (hexEncode (A.enc masterKey e.wrapNonce e.dek).1) = true := by
    apply isHexString_hexEncode
    intro h
    rw [h] at hctlen
    simp [KEY_LENGTH] at hctlen
  simp only [unwrapDEK, envelopeRecord, TxSecureRecord.dekPart, hmk, hvn, hvt, hcthex,
    Bool.not_true, ne_eq, not_true_eq_false, if_false, Bool.false_eq_true]
  rw [hexDecode_hexEncode hwb, hexDecode_hexEncode (A.enc_tag_bytes _ _ _),
    hexDecode_hexEncode (A.enc_ct_bytes hdb), A.dec_enc]

theorem decryptPayload_envelope (A : GCM) (partyId : String) (payload : Json)
    (masterKey : Bytes) {e : Entropy} (he : e.wf)
    (hpb : ∀ b ∈ strToBytes (jsonStringify payload), b < 256)
    (hne : strToBytes (jsonStringify payload) ≠ []) :
    decryptPayload A (envelopeRecord A partyId payload masterKey e).payloadPart e.dek
      = match jsonParse (jsonStringify payload) with
        | some v => .ok v
        | none => .error .decryptFailed := by
  obtain ⟨_, _, hdl, hdb, hpl, hpbn, _, _⟩ := he
  set pb := strToBytes (jsonStringify payload) with hpbdef
  have hvn : validateHex (hexEncode e.payloadNonce) NONCE_LENGTH "payload_nonce" = .ok () :=
    validateHex_hexEncode (by intro h; rw [h] at hpl; simp [NONCE_LENGTH] at hpl) hpl
  have hvt : validateHex (hexEncode (A.enc e.dek e.payloadNonce pb).2) TAG_LENGTH
      "payload_tag" = .ok () := by
    apply validateHex_hexEncode
    · intro h
      have hl := A.enc_tag_length e.dek e.payloadNonce pb
      rw [h] at hl
      simp [TAG_LENGTH] at hl
    · exact A.enc_tag_length _ _ _
  have hpblen : pb.length ≠ 0 := by
    intro h0
    exact hne (List.eq_nil_of_length_eq_zero h0)
  have hctne : (A.enc e.dek e.payloadNonce pb).1 ≠ [] := by
    intro h
    have hl := A.enc_ct_length e.dek e.payloadNonce pb
    rw [h] at hl
    exact hpblen hl.symm
  have hcthex : isHexString (hexEncode (A.enc e.dek e.payloadNonce pb).1) = true :=
    isHexString_hexEncode hctne
  simp only [decryptPayload, envelopeRecord, TxSecureRecord.payloadPart, ← hpbdef, hvn, hvt,
    hcthex, Bool.not_true, Bool.false_eq_true, if_false]
  rw [hexDecode_hexEncode hpbn, hexDecode_hexEncode (A.enc_tag_bytes _ _ _),
    hexDecode_hexEncode (A.enc_ct_bytes hpb), A.dec_enc]
  have hback : bytesToStr pb = jsonStringify payload := by
    rw [hpbdef]
    exact bytesToStr_strToBytes _
  simp only [hback]
  cases jsonParse (jsonStringify payload) <;> rfl

/-! The UUID encoding: masking preserves shape, and the hyphenated hex
format is injective, so a UUID determines exactly the masked bytes. -/

theorem uuidSetBitsAux_length (i : Nat) (bs : Bytes) :
    (uuidSetBitsAux i bs).length = bs.length := by
  induction bs generalizing i with
  | nil => rfl
  | cons b bs ih => simp [uuidSetBitsAux, ih]

theorem uuidSetBits_length (bs : Bytes) : (uuidSetBits bs).length = bs.length :=
  uuidSetBitsAux_length 0 bs

theorem uuidSetBitsAux_bytes (i : Nat) {bs : Bytes} (h : ∀ b ∈ bs, b < 256) :
    ∀ b ∈ uuidSetBitsAux i bs, b < 256 := by
  induction bs generalizing i with
  | nil => simp [uuidSetBitsAux]
  | cons b bs ih =>
    intro x hx
    simp only [uuidSetBitsAux, List.mem_cons] at hx
    rcases hx with rfl | hx
    · have hb : b < 256 := h b (by simp)
      have h64 : (64 : Nat) < 2 ^ 8 := by norm_num
      have h128 : (128 : Nat) < 2 ^ 8 := by norm_num
      split
      · have h15 : b &&& 15 < 2 ^ 8 := lt_of_le_of_lt Nat.and_le_right (by norm_num)
        have := Nat.or_lt_two_pow h15 h64
        simpa using this
      · split
        · have h63 : b &&& 63 < 2 ^ 8 := lt_of_le_of_lt Nat.and_le_right (by norm_num)
          have := Nat.or_lt_two_pow h63 h128
          simpa using this
        · exact hb
    · exact ih (i + 1) (fun u hu => h u (by simp [hu])) x hx

theorem uuidSetBits_bytes {bs : Bytes} (h : ∀ b ∈ bs, b < 256) :
    ∀ b ∈ uuidSetBits bs, b < 256 :=
  uuidSetBitsAux_bytes 0 h

theorem isHexDigit_ne_dash {c : Char} (h : isHexDigit c = true) : c ≠ '-' := by
  intro hc
  rw [hc] at h
  exact absurd h (by decide)

theorem filter_hexAll {l : List Char} (hl : ∀ c ∈ l, isHexDigit c = true) :
    l.filter (fun c => c != '-') = l := by
  apply List.filter_eq_self.mpr
  intro c hc
  simpa using isHexDigit_ne_dash (hl c hc)

theorem segments_eq (l : List Char) :
    l.take 8 ++ ((l.drop 8).take 4 ++ ((l.drop 12).take 4 ++ ((l.drop 16).take 4 ++ l.drop 20)))
      = l := by
  have h3 : (l.drop 16).drop 4 = l.drop 20 := by rw [List.drop_drop]
  have h2 : (l.drop 12).drop 4 = l.drop 16 := by rw [List.drop_drop]
  have h1 : (l.drop 8).drop 4 = l.drop 12 := by rw [List.drop_drop]
  calc l.take 8 ++ ((l.drop 8).take 4 ++ ((l.drop 12).take 4 ++ ((l.drop 16).take 4 ++ l.drop 20)))
      = l.take 8 ++ ((l.drop 8).take 4 ++ ((l.drop 12).take 4 ++ l.drop 16)) := by
        rw [← h3, List.take_append_drop]
    _ = l.take 8 ++ ((l.drop 8).take 4 ++ l.drop 12) := by
        rw [← h2, List.take_append_drop]
    _ = l.take 8 ++ l.drop 8 := by
        rw [← h1, List.take_append_drop]
    _ = l := List.take_append_drop 8 l

theorem uuidFormat_filter (bs : Bytes) :
    (uuidFormat bs).data.filter (fun c => c != '-') = hexEncodeChars bs := by
  have hmem : ∀ c ∈ hexEncodeChars bs, isHexDigit c = true := fun c hc => mem_hexEncodeChars hc
  have htake : ((hexEncodeChars bs).take 8).filter (fun c => c != '-')
      = (hexEncodeChars bs).take 8 :=
    filter_hexAll (fun c hc => hmem c (List.mem_of_mem_take hc))
  have hseg : ∀ n m : Nat, (((hexEncodeChars bs).drop n).take m).filter (fun c => c != '-')
      = ((hexEncodeChars bs).drop n).take m := by
    intro n m
    exact filter_hexAll (fun c hc => hmem c (List.mem_of_mem_drop (List.mem_of_mem_take hc)))
  have hdrop : ((hexEncodeChars bs).drop 20).filter (fun c => c != '-')
      = (hexEncodeChars bs).drop 20 :=
    filter_hexAll (fun c hc => hmem c (List.mem_of_mem_drop hc))
  simp only [uuidFormat, List.filter_append, List.filter_cons, htake, hseg, hdrop]
  norm_num
  exact segments_eq (hexEncodeChars bs)

theorem uuidFormat_inj {a b : Bytes} (ha : ∀ x ∈ a, x < 256) (hb : ∀ x ∈ b, x < 256)
    (h : uuidFormat a = uuidFormat b) : a = b := by
  have hd := congrArg (fun s => s.data.filter (fun c => c != '-')) h
  simp only [uuidFormat_filter] at hd
  exact hexEncode_inj ha hb (congrArg String.mk hd)

theorem randomUUID_eq_iff {r1 r2 : Bytes} (h1 : r1.length = 16) (h2 : r2.length = 16)
    (hb1 : ∀ x ∈ r1, x < 256) (hb2 : ∀ x ∈ r2, x < 256) :
    randomUUID r1 = randomUUID r2 ↔ uuidSetBits r1 = uuidSetBits r2 := by
  have ht1 : r1.take 16 = r1 := by rw [← h1, List.take_length]
  have ht2 : r2.take 16 = r2 := by rw [← h2, List.take_length]
  unfold randomUUID
  rw [ht1, ht2]
  constructor
  · intro h
    exact uuidFormat_inj (uuidSetBits_bytes hb1) (uuidSetBits_bytes hb2) h
  · intro h
    rw [h]

/-! Remaining helper lemmas used by several claims. -/

theorem validateHex_error_isFormat {hex : String} {n : Nat} {f : String} {err : CryptoError}
    (h : validateHex hex n f = .error err) : err.isFormatError = true := by
  unfold validateHex at h
  split at h
  · cases h
    rfl
  · split at h
    · cases h
      rfl
    · cases h

theorem encryptEnvelope_fields {A : GCM} {pid : String} {p : Json} {mk : Bytes}
    {e : Entropy} {R : TxSecureRecord} (h : encryptEnvelope A pid p mk e = .ok R) :
    R.alg = "AES-256-GCM" ∧ R.mk_version = 1 := by
  unfold encryptEnvelope at h
  split at h
  · cases h
  · unfold wrapDEK at h
    split at h
    · cases h
    · cases h
      exact ⟨rfl, rfl⟩

theorem payloadUSD_roundtrip : jsonParse (jsonStringify payloadUSD) = some payloadUSD := by
  rfl

theorem GCM.enc_tag_eq (A : GCM) (key nonce pt : Bytes) :
    (A.enc key nonce pt).2 = A.mac key nonce (A.enc key nonce pt).1 := rfl

theorem validateHex_of_valid {hex : String} {n : Nat} {f : String}
    (hh : isHexString hex = true) (hl : hex.length = n * 2) :
    validateHex hex n f = .ok () := by
  simp [validateHex, hh, hl]

theorem decryptPayload_eq_dec (A : GCM) (r : PayloadEncryption) (dek : Bytes)
    (hn : validateHex r.payload_nonce NONCE_LENGTH "payload_nonce" = .ok ())
    (ht : validateHex r.payload_tag TAG_LENGTH "payload_tag" = .ok ())
    (hc : isHexString r.payload_ct = true) :
    decryptPayload A r dek
      = match A.dec dek (hexDecode r.payload_nonce) (hexDecode r.payload_ct)
          (hexDecode r.payload_tag) with
        | none => .error .decryptFailed
        | some decrypted =>
          match jsonParse (bytesToStr decrypted) with
          | none => .error .decryptFailed
          | some v => .ok v := by
  simp only [decryptPayload, hn, ht, hc, Bool.not_true, Bool.false_eq_true, if_false]

theorem unwrapDEK_eq_dec (A : GCM) (w : DekWrapping) (mk : Bytes)
    (hmk : mk.length = KEY_LENGTH)
    (hn : validateHex w.dek_wrap_nonce NONCE_LENGTH "dek_wrap_nonce" = .ok ())
    (ht : validateHex w.dek_wrap_tag TAG_LENGTH "dek_wrap_tag" = .ok ())
    (hc : isHexString w.dek_wrapped = true) :
    unwrapDEK A w mk
      = match A.dec mk (hexDecode w.dek_wrap_nonce) (hexDecode w.dek_wrapped)
          (hexDecode w.dek_wrap_tag) with
        | some d => .ok d
        | none => .error .unwrapFailed := by
  have hmkne : ¬(mk.length ≠ KEY_LENGTH) := fun hc2 => hc2 hmk
  simp only [unwrapDEK, if_neg hmkne, hn, ht, hc, Bool.not_true, Bool.false_eq_true, if_false]

/-! The claims. -/

/-- Claim C1: for every JSON-serializable payload, party id and 32-byte
master key, the record produced by `encryptEnvelope` satisfies
`decryptPayload(R, unwrapDEK(R, M)) == P`, where equality is structural
equality of the JSON value after the serialization round-trip. -/
theorem C1_envelope_roundtrip (A : GCM) (partyId : String) (p q : Json)
    (masterKey : Bytes) (e : Entropy)
    (hmk : masterKey.length = KEY_LENGTH) (he : e.wf)
    (hpb : ∀ b ∈ strToBytes (jsonStringify p), b < 256)
    (hne : strToBytes (jsonStringify p) ≠ [])
    (hrt : jsonParse (jsonStringify p) = some q) :
    ∃ R, encryptEnvelope A partyId p masterKey e = .ok R ∧
      unwrapDEK A R.dekPart masterKey = .ok (generateDEK e) ∧
      decryptPayload A R.payloadPart (generateDEK e) = .ok q := by
  refine ⟨envelopeRecord A partyId p masterKey e,
    encryptEnvelope_ok A partyId p e hmk,
    unwrapDEK_envelope A partyId p hmk he, ?_⟩
  rw [show generateDEK e = e.dek from rfl,
    decryptPayload_envelope A partyId p masterKey he hpb hne, hrt]

/-- Witness for C1 at the toy cipher, payload `7`, the zero master key
and the zero entropy draws. -/
theorem C1_envelope_roundtrip_witness :
    ∃ R, encryptEnvelope toyGCM "user_123" (.jnum 7) zeroMasterKey e0 = .ok R ∧
      unwrapDEK toyGCM R.dekPart zeroMasterKey = .ok (generateDEK e0) ∧
      decryptPayload toyGCM R.payloadPart (generateDEK e0) = .ok (.jnum 7) :=
  C1_envelope_roundtrip toyGCM "user_123" (.jnum 7) (.jnum 7) zeroMasterKey e0
    (by decide) (by decide) (by decide) (by decide) (by rfl)

/-- Claim C5: every record returned by `encryptEnvelope` carries
`alg == "AES-256-GCM"` and `mk_version == 1`; and for the 32-zero-byte
master key, party `user_123` and payload `\x7b"amount":100,"currency":"USD"\x7d`
(written here as `payloadUSD`), `encryptEnvelope` produces such a record
and unwrap plus decrypt return the exact original object. -/
theorem C5_happy_path (A : GCM) (e : Entropy) (he : e.wf) :
    (∀ (pid : String) (p : Json) (mk : Bytes) (e2 : Entropy) (R : TxSecureRecord),
        encryptEnvelope A pid p mk e2 = .ok R →
        R.alg = "AES-256-GCM" ∧ R.mk_version = 1) ∧
    (∃ R, encryptEnvelope A "user_123" payloadUSD zeroMasterKey e = .ok R ∧
        R.alg = "AES-256-GCM" ∧ R.mk_version = 1 ∧
        ∃ dek, unwrapDEK A R.dekPart zeroMasterKey = .ok dek ∧
          decryptPayload A R.payloadPart dek = .ok payloadUSD) := by
  have hmk : zeroMasterKey.length = KEY_LENGTH := by decide
  refine ⟨fun pid p mk e2 R h => encryptEnvelope_fields h, ?_⟩
  refine ⟨envelopeRecord A "user_123" payloadUSD zeroMasterKey e,
    encryptEnvelope_ok A "user_123" payloadUSD e hmk, rfl, rfl, e.dek,
    unwrapDEK_envelope A "user_123" payloadUSD hmk he, ?_⟩
  rw [decryptPayload_envelope A "user_123" payloadUSD zeroMasterKey he (by decide) (by decide),
    payloadUSD_roundtrip]

/-- Witness for C5 at the toy cipher and the zero entropy draws. -/
theorem C5_happy_path_witness :
    (∀ (pid : String) (p : Json) (mk : Bytes) (e2 : Entropy) (R : TxSecureRecord),
        encryptEnvelope toyGCM pid p mk e2 = .ok R →
        R.alg = "AES-256-GCM" ∧ R.mk_version = 1) ∧
    (∃ R, encryptEnvelope toyGCM "user_123" payloadUSD zeroMasterKey e0 = .ok R ∧
        R.alg = "AES-256-GCM" ∧ R.mk_version = 1 ∧
        ∃ dek, unwrapDEK toyGCM R.dekPart zeroMasterKey = .ok dek ∧
          decryptPayload toyGCM R.payloadPart dek = .ok payloadUSD) :=
  C5_happy_path toyGCM e0 (by decide)

/-- Claim C8: when authenticated decryption succeeds but the recovered
bytes are not valid JSON, `decryptPayload` fails with the same error
kind as a tag-verification failure — the two failures are
indistinguishable to the caller. -/
theorem C8_deserialization_indistinguishable (A : GCM)
    (r1 r2 : PayloadEncryption) (dek1 dek2 bs : Bytes)
    (h1n : validateHex r1.payload_nonce NONCE_LENGTH "payload_nonce" = .ok ())
    (h1t : validateHex r1.payload_tag TAG_LENGTH "payload_tag" = .ok ())
    (h1c : isHexString r1.payload_ct = true)
    (h1dec : A.dec dek1 (hexDecode r1.payload_nonce) (hexDecode r1.payload_ct)
        (hexDecode r1.payload_tag) = some bs)
    (h1json : jsonParse (bytesToStr bs) = none)
    (h2n : validateHex r2.payload_nonce NONCE_LENGTH "payload_nonce" = .ok ())
    (h2t : validateHex r2.payload_tag TAG_LENGTH "payload_tag" = .ok ())
    (h2c : isHexString r2.payload_ct = true)
    (h2dec : A.dec dek2 (hexDecode r2.payload_nonce) (hexDecode r2.payload_ct)
        (hexDecode r2.payload_tag) = none) :
    decryptPayload A r1 dek1 = .error .decryptFailed ∧
    decryptPayload A r2 dek2 = .error .decryptFailed ∧
    decryptPayload A r1 dek1 = decryptPayload A r2 dek2 := by
  have hd1 : decryptPayload A r1 dek1 = .error .decryptFailed := by
    simp only [decryptPayload, h1n, h1t, h1c, Bool.not_true, Bool.false_eq_true, if_false,
      h1dec, h1json]
  have hd2 : decryptPayload A r2 dek2 = .error .decryptFailed := by
    simp only [decryptPayload, h2n, h2t, h2c, Bool.not_true, Bool.false_eq_true, if_false,
      h2dec]
  exact ⟨hd1, hd2, hd1.trans hd2.symm⟩

/-- Witness for C8: under the toy cipher and the zero DEK, `rBadJson`
authenticates to the non-JSON byte `x`, while `rBadTag` fails
authentication; both produce the same decrypt tamper error. -/
theorem C8_deserialization_indistinguishable_witness :
    decryptPayload toyGCM rBadJson (List.replicate 32 0) = .error .decryptFailed ∧
    decryptPayload toyGCM rBadTag (List.replicate 32 0) = .error .decryptFailed ∧
    decryptPayload toyGCM rBadJson (List.replicate 32 0)
      = decryptPayload toyGCM rBadTag (List.replicate 32 0) :=
  C8_deserialization_indistinguishable toyGCM rBadJson rBadTag
    (List.replicate 32 0) (List.replicate 32 0) [120]
    (by rfl) (by rfl) (by rfl) (by rfl) (by rfl) (by rfl) (by rfl) (by rfl) (by rfl)

/-- Claim C9: an empty `payload_ct` is always rejected by
`decryptPayload` with a format error (the hex pattern requires at least
one character), for every DEK and cipher; likewise `unwrapDEK` rejects
an empty `dek_wrapped` with a format error when the master key has the
proper length. -/
theorem C9_empty_ciphertext_rejected (A : GCM) (r : PayloadEncryption)
    (dek : Bytes) (w : DekWrapping) (mk : Bytes)
    (hct : r.payload_ct = "") (hwct : w.dek_wrapped = "")
    (hmk : mk.length = KEY_LENGTH) :
    (∃ err, decryptPayload A r dek = .error err ∧ err.isFormatError = true) ∧
    (∃ err, unwrapDEK A w mk = .error err ∧ err.isFormatError = true) := by
  constructor
  · unfold decryptPayload
    cases hv1 : validateHex r.payload_nonce NONCE_LENGTH "payload_nonce" with
    | error e1 => exact ⟨e1, rfl, validateHex_error_isFormat hv1⟩
    | ok u1 =>
      cases u1
      cases hv2 : validateHex r.payload_tag TAG_LENGTH "payload_tag" with
      | error e2 => exact ⟨e2, rfl, validateHex_error_isFormat hv2⟩
      | ok u2 =>
        cases u2
        refine ⟨.invalidHexFor "payload_ct", ?_, rfl⟩
        rw [hct]
        rfl
  · unfold unwrapDEK
    rw [if_neg (by rw [hmk]; exact fun hc => hc rfl)]
    cases hv1 : validateHex w.dek_wrap_nonce NONCE_LENGTH "dek_wrap_nonce" with
    | error e1 => exact ⟨e1, rfl, validateHex_error_isFormat hv1⟩
    | ok u1 =>
      cases u1
      cases hv2 : validateHex w.dek_wrap_tag TAG_LENGTH "dek_wrap_tag" with
      | error e2 => exact ⟨e2, rfl, validateHex_error_isFormat hv2⟩
      | ok u2 =>
        cases u2
        refine ⟨.invalidHexFor "dek_wrapped", ?_, rfl⟩
        rw [hwct]
        rfl

/-- Witness for C9 at concrete records with empty ciphertext fields. -/
theorem C9_empty_ciphertext_rejected_witness :
    (∃ err, decryptPayload toyGCM
        { payload_nonce := hexEncode (List.replicate 12 0)
          payload_ct := ""
          payload_tag := hexEncode (List.replicate 16 0) } (List.replicate 32 0)
        = .error err ∧ err.isFormatError = true) ∧
    (∃ err, unwrapDEK toyGCM
        { dek_wrap_nonce := hexEncode (List.replicate 12 0)
          dek_wrapped := ""
          dek_wrap_tag := hexEncode (List.replicate 16 0) } zeroMasterKey
        = .error err ∧ err.isFormatError = true) :=
  C9_empty_ciphertext_rejected toyGCM
    { payload_nonce := hexEncode (List.replicate 12 0)
      payload_ct := ""
      payload_tag := hexEncode (List.replicate 16 0) }
    (List.replicate 32 0)
    { dek_wrap_nonce := hexEncode (List.replicate 12 0)
      dek_wrapped := ""
      dek_wrap_tag := hexEncode (List.replicate 16 0) }
    zeroMasterKey rfl rfl (by decide)

/-- Claim C10: in `unwrapDEK` a wrong master-key length produces the
key-length error no matter how malformed the record fields are, and the
unwrap tamper error can only arise after the master-key check and every
field validation have passed. -/
theorem C10_unwrap_error_precedence (A : GCM) (w w2 : DekWrapping) (mk mk2 : Bytes)
    (hmk : mk.length ≠ KEY_LENGTH)
    (htamper : unwrapDEK A w2 mk2 = .error .unwrapFailed) :
    unwrapDEK A w mk = .error .invalidMasterKeyLength ∧
    mk2.length = KEY_LENGTH ∧
    validateHex w2.dek_wrap_nonce NONCE_LENGTH "dek_wrap_nonce" = .ok () ∧
    validateHex w2.dek_wrap_tag TAG_LENGTH "dek_wrap_tag" = .ok () ∧
    isHexString w2.dek_wrapped = true := by
  constructor
  · unfold unwrapDEK
    rw [if_pos hmk]
  · unfold unwrapDEK at htamper
    split at htamper
    · cases htamper
    · rename_i hlen
      constructor
      · exact not_not.mp hlen
      · cases hv1 : validateHex w2.dek_wrap_nonce NONCE_LENGTH "dek_wrap_nonce" with
        | error e1 =>
          rw [hv1] at htamper
          cases htamper
          exact absurd (validateHex_error_isFormat hv1) (by decide)
        | ok u1 =>
          cases u1
          rw [hv1] at htamper
          cases hv2 : validateHex w2.dek_wrap_tag TAG_LENGTH "dek_wrap_tag" with
          | error e2 =>
            rw [hv2] at htamper
            cases htamper
            exact absurd (validateHex_error_isFormat hv2) (by decide)
          | ok u2 =>
            cases u2
            rw [hv2] at htamper
            refine ⟨rfl, rfl, ?_⟩
            by_contra hhex
            rw [Bool.not_eq_true] at hhex
            rw [hhex] at htamper
            cases htamper

/-- Witness for C10: a 16-byte master key with garbage fields yields the
key-length error; a case of genuine tag tampering under the zero master
key yields the unwrap tamper error only with all validations passed. -/
theorem C10_unwrap_error_precedence_witness :
    unwrapDEK toyGCM
      { dek_wrap_nonce := "zz", dek_wrapped := "", dek_wrap_tag := "!" }
      (List.replicate 16 0) = .error .invalidMasterKeyLength ∧
    zeroMasterKey.length = KEY_LENGTH ∧
    validateHex (R0.dekPart).dek_wrap_nonce NONCE_LENGTH "dek_wrap_nonce" = .ok () ∧
    validateHex { R0.dekPart with
        dek_wrap_tag := hexEncode (List.replicate 16 5) : DekWrapping }.dek_wrap_tag
      TAG_LENGTH "dek_wrap_tag" = .ok () ∧
    isHexString { R0.dekPart with
        dek_wrap_tag := hexEncode (List.replicate 16 5) : DekWrapping }.dek_wrapped = true := by
  have h := C10_unwrap_error_precedence toyGCM
    { dek_wrap_nonce := "zz", dek_wrapped := "", dek_wrap_tag := "!" }
    { R0.dekPart with dek_wrap_tag := hexEncode (List.replicate 16 5) }
    (List.replicate 16 0) zeroMasterKey (by decide) (by rfl)
  exact ⟨h.1, h.2.1, by rfl, h.2.2.2.1, h.2.2.2.2⟩

/-- Claim C3: `wrapDEK`, `unwrapDEK` and `encryptEnvelope` all reject a
master key whose length is not 32 bytes with the key-length error, and
`encryptEnvelope` performs the check first: for a bad key its result is
the error independently of every random draw, so no record is produced. -/
theorem C3_master_key_length (A : GCM) (dek nonce : Bytes) (w : DekWrapping)
    (pid : String) (p : Json) (mk : Bytes) (e e2 : Entropy)
    (hmk : mk.length ≠ KEY_LENGTH) :
    wrapDEK A dek mk nonce = .error .invalidMasterKeyLength ∧
    unwrapDEK A w mk = .error .invalidMasterKeyLength ∧
    encryptEnvelope A pid p mk e = .error .invalidMasterKeyLength ∧
    encryptEnvelope A pid p mk e = encryptEnvelope A pid p mk e2 := by
  have hw : wrapDEK A dek mk nonce = .error .invalidMasterKeyLength := by
    unfold wrapDEK
    rw [if_pos hmk]
  have hu : unwrapDEK A w mk = .error .invalidMasterKeyLength := by
    unfold unwrapDEK
    rw [if_pos hmk]
  have hv : ∀ e3 : Entropy, encryptEnvelope A pid p mk e3 = .error .invalidMasterKeyLength := by
    intro e3
    unfold encryptEnvelope
    rw [if_pos hmk]
  exact ⟨hw, hu, hv e, (hv e).trans (hv e2).symm⟩

/-- Witness for C3 at a 16-byte key and at a 33-byte key (covering both
too-short and too-long buffers). -/
theorem C3_master_key_length_witness :
    (wrapDEK toyGCM e0.dek (List.replicate 16 0) e0.wrapNonce
        = .error .invalidMasterKeyLength ∧
      unwrapDEK toyGCM R0.dekPart (List.replicate 16 0)
        = .error .invalidMasterKeyLength ∧
      encryptEnvelope toyGCM "user_123" payloadUSD (List.replicate 16 0) e0
        = .error .invalidMasterKeyLength ∧
      encryptEnvelope toyGCM "user_123" payloadUSD (List.replicate 16 0) e0
        = encryptEnvelope toyGCM "user_123" payloadUSD (List.replicate 16 0) e1) ∧
    (wrapDEK toyGCM e0.dek (List.replicate 33 0) e0.wrapNonce
        = .error .invalidMasterKeyLength ∧
      unwrapDEK toyGCM R0.dekPart (List.replicate 33 0)
        = .error .invalidMasterKeyLength ∧
      encryptEnvelope toyGCM "user_123" payloadUSD (List.replicate 33 0) e0
        = .error .invalidMasterKeyLength ∧
      encryptEnvelope toyGCM "user_123" payloadUSD (List.replicate 33 0) e0
        = encryptEnvelope toyGCM "user_123" payloadUSD (List.replicate 33 0) e1) :=
  ⟨C3_master_key_length toyGCM e0.dek e0.wrapNonce R0.dekPart "user_123" payloadUSD
      (List.replicate 16 0) e0 e1 (by decide),
    C3_master_key_length toyGCM e0.dek e0.wrapNonce R0.dekPart "user_123" payloadUSD
      (List.replicate 33 0) e0 e1 (by decide)⟩

/-- Claim C4: on the decrypt paths, a nonce that is not 24 hex
characters, a tag that is not 32 hex characters, or any non-hex
character is rejected with the corresponding format error before any
cryptographic decryption (the error is a constant, independent of the
cipher and the key), while the ciphertext and wrapped-key fields are
checked for hex format only: with any hex value there, of any length,
control reaches authenticated decryption. -/
theorem C4_field_validation (A : GCM) (r : PayloadEncryption) (w : DekWrapping)
    (dek mk : Bytes) (hmk : mk.length = KEY_LENGTH) :
    (isHexString r.payload_nonce = false →
      decryptPayload A r dek = .error (.invalidHexFor "payload_nonce")) ∧
    (isHexString r.payload_nonce = true → r.payload_nonce.length ≠ NONCE_LENGTH * 2 →
      decryptPayload A r dek
        = .error (.invalidLengthFor "payload_nonce" NONCE_LENGTH r.payload_nonce.length)) ∧
    (validateHex r.payload_nonce NONCE_LENGTH "payload_nonce" = .ok () →
      isHexString r.payload_tag = false →
      decryptPayload A r dek = .error (.invalidHexFor "payload_tag")) ∧
    (validateHex r.payload_nonce NONCE_LENGTH "payload_nonce" = .ok () →
      isHexString r.payload_tag = true → r.payload_tag.length ≠ TAG_LENGTH * 2 →
      decryptPayload A r dek
        = .error (.invalidLengthFor "payload_tag" TAG_LENGTH r.payload_tag.length)) ∧
    (validateHex r.payload_nonce NONCE_LENGTH "payload_nonce" = .ok () →
      validateHex r.payload_tag TAG_LENGTH "payload_tag" = .ok () →
      isHexString r.payload_ct = false →
      decryptPayload A r dek = .error (.invalidHexFor "payload_ct")) ∧
    (validateHex r.payload_nonce NONCE_LENGTH "payload_nonce" = .ok () →
      validateHex r.payload_tag TAG_LENGTH "payload_tag" = .ok () →
      isHexString r.payload_ct = true →
      decryptPayload A r dek
        = match A.dec dek (hexDecode r.payload_nonce) (hexDecode r.payload_ct)
            (hexDecode r.payload_tag) with
          | none => .error .decryptFailed
          | some decrypted =>
            match jsonParse (bytesToStr decrypted) with
            | none => .error .decryptFailed
            | some v => .ok v) ∧
    (isHexString w.dek_wrap_nonce = false →
      unwrapDEK A w mk = .error (.invalidHexFor "dek_wrap_nonce")) ∧
    (isHexString w.dek_wrap_nonce = true → w.dek_wrap_nonce.length ≠ NONCE_LENGTH * 2 →
      unwrapDEK A w mk
        = .error (.invalidLengthFor "dek_wrap_nonce" NONCE_LENGTH w.dek_wrap_nonce.length)) ∧
    (validateHex w.dek_wrap_nonce NONCE_LENGTH "dek_wrap_nonce" = .ok () →
      isHexString w.dek_wrap_tag = false →
      unwrapDEK A w mk = .error (.invalidHexFor "dek_wrap_tag")) ∧
    (validateHex w.dek_wrap_nonce NONCE_LENGTH "dek_wrap_nonce" = .ok () →
      isHexString w.dek_wrap_tag = true → w.dek_wrap_tag.length ≠ TAG_LENGTH * 2 →
      unwrapDEK A w mk
        = .error (.invalidLengthFor "dek_wrap_tag" TAG_LENGTH w.dek_wrap_tag.length)) ∧
    (validateHex w.dek_wrap_nonce NONCE_LENGTH "dek_wrap_nonce" = .ok () →
      validateHex w.dek_wrap_tag TAG_LENGTH "dek_wrap_tag" = .ok () →
      isHexString w.dek_wrapped = false →
      unwrapDEK A w mk = .error (.invalidHexFor "dek_wrapped")) ∧
    (validateHex w.dek_wrap_nonce NONCE_LENGTH "dek_wrap_nonce" = .ok () →
      validateHex w.dek_wrap_tag TAG_LENGTH "dek_wrap_tag" = .ok () →
      isHexString w.dek_wrapped = true →
      unwrapDEK A w mk
        = match A.dec mk (hexDecode w.dek_wrap_nonce) (hexDecode w.dek_wrapped)
            (hexDecode w.dek_wrap_tag) with
          | some d => .ok d
          | none => .error .unwrapFailed) := by
  have hmkne : ¬(mk.length ≠ KEY_LENGTH) := fun hc => hc hmk
  refine ⟨?_, ?_, ?_, ?_, ?_, ?_, ?_, ?_, ?_, ?_, ?_, ?_⟩
  · intro h
    simp only [decryptPayload, validateHex, h, Bool.not_false, if_true]
  · intro h hl
    simp only [decryptPayload, validateHex, h, Bool.not_true, Bool.false_eq_true, if_false,
      if_pos hl]
  · intro hn h
    simp only [decryptPayload, hn]
    simp only [validateHex, h, Bool.not_false, if_true]
  · intro hn h hl
    simp only [decryptPayload, hn]
    simp only [validateHex, h, Bool.not_true, Bool.false_eq_true, if_false, if_pos hl]
  · intro hn ht h
    simp only [decryptPayload, hn, ht, h, Bool.not_false, if_true]
  · intro hn ht h
    simp only [decryptPayload, hn, ht, h, Bool.not_true, Bool.false_eq_true, if_false]
  · intro h
    simp only [unwrapDEK, if_neg hmkne, validateHex, h, Bool.not_false, if_true]
  · intro h hl
    simp only [unwrapDEK, if_neg hmkne, validateHex, h, Bool.not_true, Bool.false_eq_true,
      if_false, if_pos hl]
  · intro hn h
    simp only [unwrapDEK, if_neg hmkne, hn]
    simp only [validateHex, h, Bool.not_false, if_true]
  · intro hn h hl
    simp only [unwrapDEK, if_neg hmkne, hn]
    simp only [validateHex, h, Bool.not_true, Bool.false_eq_true, if_false, if_pos hl]
  · intro hn ht h
    simp only [unwrapDEK, if_neg hmkne, hn, ht, h, Bool.not_false, if_true]
  · intro hn ht h
    simp only [unwrapDEK, if_neg hmkne, hn, ht, h, Bool.not_true, Bool.false_eq_true, if_false]

/-- Witness for C4 at a record with a 26-hex-character nonce, a non-hex
tag, and ciphertext fields of unusual but hex-valid lengths. -/
theorem C4_field_validation_witness :
    (isHexString "ff00" = false →
      decryptPayload toyGCM
        { payload_nonce := "ff00", payload_ct := "aa", payload_tag := "bb" }
        [] = .error (.invalidHexFor "payload_nonce")) ∧
    (isHexString "ff00" = true → ("ff00" : String).length ≠ NONCE_LENGTH * 2 →
      decryptPayload toyGCM
        { payload_nonce := "ff00", payload_ct := "aa", payload_tag := "bb" }
        [] = .error (.invalidLengthFor "payload_nonce" NONCE_LENGTH ("ff00" : String).length)) ∧
    (validateHex "ff00" NONCE_LENGTH "payload_nonce" = .ok () →
      isHexString "aa" = false →
      decryptPayload toyGCM
        { payload_nonce := "ff00", payload_ct := "aa", payload_tag := "bb" }
        [] = .error (.invalidHexFor "payload_tag")) ∧
    (validateHex "ff00" NONCE_LENGTH "payload_nonce" = .ok () →
      isHexString "bb" = true → ("bb" : String).length ≠ TAG_LENGTH * 2 →
      decryptPayload toyGCM
        { payload_nonce := "ff00", payload_ct := "aa", payload_tag := "bb" }
        [] = .error (.invalidLengthFor "payload_tag" TAG_LENGTH ("bb" : String).length)) ∧
    (validateHex "ff00" NONCE_LENGTH "payload_nonce" = .ok () →
      validateHex "bb" TAG_LENGTH "payload_tag" = .ok () →
      isHexString "aa" = false →
      decryptPayload toyGCM
        { payload_nonce := "ff00", payload_ct := "aa", payload_tag := "bb" }
        [] = .error (.invalidHexFor "payload_ct")) ∧
    (validateHex "ff00" NONCE_LENGTH "payload_nonce" = .ok () →
      validateHex "bb" TAG_LENGTH "payload_tag" = .ok () →
      isHexString "aa" = true →
      decryptPayload toyGCM
        { payload_nonce := "ff00", payload_ct := "aa", payload_tag := "bb" }
        [] = match toyGCM.dec [] (hexDecode "ff00") (hexDecode "aa") (hexDecode "bb") with
          | none => .error .decryptFailed
          | some decrypted =>
            match jsonParse (bytesToStr decrypted) with
            | none => .error .decryptFailed
            | some v => .ok v) ∧
    (isHexString R0.dek_wrap_nonce = false →
      unwrapDEK toyGCM R0.dekPart zeroMasterKey = .error (.invalidHexFor "dek_wrap_nonce")) ∧
    (isHexString R0.dek_wrap_nonce = true → R0.dek_wrap_nonce.length ≠ NONCE_LENGTH * 2 →
      unwrapDEK toyGCM R0.dekPart zeroMasterKey
        = .error (.invalidLengthFor "dek_wrap_nonce" NONCE_LENGTH R0.dek_wrap_nonce.length)) ∧
    (validateHex R0.dek_wrap_nonce NONCE_LENGTH "dek_wrap_nonce" = .ok () →
      isHexString R0.dek_wrap_tag = false →
      unwrapDEK toyGCM R0.dekPart zeroMasterKey = .error (.invalidHexFor "dek_wrap_tag")) ∧
    (validateHex R0.dek_wrap_nonce NONCE_LENGTH "dek_wrap_nonce" = .ok () →
      isHexString R0.dek_wrap_tag = true → R0.dek_wrap_tag.length ≠ TAG_LENGTH * 2 →
      unwrapDEK toyGCM R0.dekPart zeroMasterKey
        = .error (.invalidLengthFor "dek_wrap_tag" TAG_LENGTH R0.dek_wrap_tag.length)) ∧
    (validateHex R0.dek_wrap_nonce NONCE_LENGTH "dek_wrap_nonce" = .ok () →
      validateHex R0.dek_wrap_tag TAG_LENGTH "dek_wrap_tag" = .ok () →
      isHexString R0.dek_wrapped = false →
      unwrapDEK toyGCM R0.dekPart zeroMasterKey = .error (.invalidHexFor "dek_wrapped")) ∧
    (validateHex R0.dek_wrap_nonce NONCE_LENGTH "dek_wrap_nonce" = .ok () →
      validateHex R0.dek_wrap_tag TAG_LENGTH "dek_wrap_tag" = .ok () →
      isHexString R0.dek_wrapped = true →
      unwrapDEK toyGCM R0.dekPart zeroMasterKey
        = match toyGCM.dec zeroMasterKey (hexDecode R0.dek_wrap_nonce)
            (hexDecode R0.dek_wrapped) (hexDecode R0.dek_wrap_tag) with
          | some d => .ok d
          | none => .error .unwrapFailed) :=
  C4_field_validation toyGCM
    { payload_nonce := "ff00", payload_ct := "aa", payload_tag := "bb" }
    R0.dekPart [] zeroMasterKey (by decide)

/-- Counterexample to C2 as stated: re-spelling `payload_tag` in upper
case is a modification of the stored field, yet `decryptPayload`
accepts the modified record (hex decoding is case-insensitive), so not
every modification of `payload_tag` causes a failure. -/
theorem C2_tamper_detection_cex :
    encryptEnvelope toyGCM "user_123" (.jnum 1) zeroMasterKey e0 = .ok R0 ∧
    caseTamperedR0.payload_tag ≠ R0.payloadPart.payload_tag ∧
    decryptPayload toyGCM caseTamperedR0 (generateDEK e0) = .ok (.jnum 1) :=
  ⟨by rfl, by decide, by rfl⟩

/-- Claim C2 (amended): for every record produced by `encryptEnvelope`,
tampering that changes the decoded bytes of `payload_tag` or
`dek_wrap_tag` makes decryption (resp. unwrapping) fail with the tamper
error; flipping a single byte of the ciphertext fails whenever the
cipher's tag of the flipped ciphertext differs from the stored one, and
unwrapping under a different 32-byte master key fails whenever that
key's tag differs — and in each of these cases an error is returned, so
no wrong data is ever silently produced. -/
theorem C2_tamper_detection (A : GCM) (pid : String) (p : Json) (mk mk2 : Bytes)
    (e : Entropy) (hmk : mk.length = KEY_LENGTH) (hmk2 : mk2.length = KEY_LENGTH)
    (he : e.wf)
    (hpb : ∀ b ∈ strToBytes (jsonStringify p), b < 256)
    (hne : strToBytes (jsonStringify p) ≠ []) :
    ∃ R, encryptEnvelope A pid p mk e = .ok R ∧
      (∀ tag2 : String, isHexString tag2 = true → tag2.length = TAG_LENGTH * 2 →
        hexDecode tag2 ≠ hexDecode R.payload_tag →
        decryptPayload A { R.payloadPart with payload_tag := tag2 } (generateDEK e)
          = .error .decryptFailed) ∧
      (∀ i b : Nat, i < (hexDecode R.payload_ct).length → b < 256 →
        A.mac e.dek e.payloadNonce ((hexDecode R.payload_ct).set i b)
            ≠ A.mac e.dek e.payloadNonce (hexDecode R.payload_ct) →
        decryptPayload A
          { R.payloadPart with payload_ct := hexEncode ((hexDecode R.payload_ct).set i b) }
          (generateDEK e) = .error .decryptFailed) ∧
      (∀ tag2 : String, isHexString tag2 = true → tag2.length = TAG_LENGTH * 2 →
        hexDecode tag2 ≠ hexDecode R.dek_wrap_tag →
        unwrapDEK A { R.dekPart with dek_wrap_tag := tag2 } mk = .error .unwrapFailed) ∧
      (A.mac mk2 e.wrapNonce (hexDecode R.dek_wrapped)
          ≠ A.mac mk e.wrapNonce (hexDecode R.dek_wrapped) →
        unwrapDEK A R.dekPart mk2 = .error .unwrapFailed) := by
  obtain ⟨_, _, hdl, hdb, hpl, hpbn, hwl, hwb⟩ := he
  set pb := strToBytes (jsonStringify p) with hpbdef
  set ct := (A.enc e.dek e.payloadNonce pb).1 with hctdef
  set wct := (A.enc mk e.wrapNonce e.dek).1 with hwctdef
  have hctb : ∀ x ∈ ct, x < 256 := A.enc_ct_bytes hpb
  have hwctb : ∀ x ∈ wct, x < 256 := A.enc_ct_bytes hdb
  have hctlen : ct.length = pb.length := A.enc_ct_length _ _ _
  have hwctlen : wct.length = KEY_LENGTH := by rw [hwctdef, A.enc_ct_length, hdl]
  have hctne : ct ≠ [] := by
    intro h
    rw [h] at hctlen
    exact hne (List.eq_nil_of_length_eq_zero hctlen.symm)
  have hwctne : wct ≠ [] := by
    intro h
    rw [h] at hwctlen
    simp [KEY_LENGTH] at hwctlen
  have hvn : validateHex (hexEncode e.payloadNonce) NONCE_LENGTH "payload_nonce" = .ok () :=
    validateHex_hexEncode (by intro h; rw [h] at hpl; simp [NONCE_LENGTH] at hpl) hpl
  have hvwn : validateHex (hexEncode e.wrapNonce) NONCE_LENGTH "dek_wrap_nonce" = .ok () :=
    validateHex_hexEncode (by intro h; rw [h] at hwl; simp [NONCE_LENGTH] at hwl) hwl
  have hcthex : isHexString (hexEncode ct) = true := isHexString_hexEncode hctne
  have hwcthex : isHexString (hexEncode wct) = true := isHexString_hexEncode hwctne
  refine ⟨envelopeRecord A pid p mk e, encryptEnvelope_ok A pid p e hmk, ?_, ?_, ?_, ?_⟩
  · intro tag2 hhex hlen hdiff
    have hdec : decryptPayload A
        { (envelopeRecord A pid p mk e).payloadPart with payload_tag := tag2 } e.dek
        = match A.dec e.dek (hexDecode (hexEncode e.payloadNonce)) (hexDecode (hexEncode ct))
            (hexDecode tag2) with
          | none => .error .decryptFailed
          | some decrypted =>
            match jsonParse (bytesToStr decrypted) with
            | none => .error .decryptFailed
            | some v => .ok v :=
      decryptPayload_eq_dec A _ e.dek hvn (validateHex_of_valid hhex hlen) hcthex
    rw [show generateDEK e = e.dek from rfl, hdec, hexDecode_hexEncode hpbn,
      hexDecode_hexEncode hctb]
    have hcond : hexDecode tag2 ≠ A.mac e.dek e.payloadNonce ct := by
      intro hcontra
      apply hdiff
      show hexDecode tag2 = hexDecode (envelopeRecord A pid p mk e).payload_tag
      rw [hcontra]
      show A.mac e.dek e.payloadNonce ct
        = hexDecode (hexEncode (A.enc e.dek e.payloadNonce pb).2)
      rw [hexDecode_hexEncode (A.enc_tag_bytes _ _ _), A.enc_tag_eq]
    rw [show A.dec e.dek e.payloadNonce ct (hexDecode tag2) = none from if_neg hcond]
  · intro i b hi hblt hmac
    have hilen : i < ct.length := by
      have : hexDecode (envelopeRecord A pid p mk e).payload_ct = ct := by
        show hexDecode (hexEncode ct) = ct
        exact hexDecode_hexEncode hctb
      rwa [this] at hi
    have hct2 : hexDecode (envelopeRecord A pid p mk e).payload_ct = ct := by
      show hexDecode (hexEncode ct) = ct
      exact hexDecode_hexEncode hctb
    rw [hct2] at hmac
    have hct2b : ∀ x ∈ ct.set i b, x < 256 := by
      intro x hx
      rcases List.mem_or_eq_of_mem_set hx with hx2 | rfl
      · exact hctb x hx2
      · exact hblt
    have hct2ne : ct.set i b ≠ [] := by
      intro h
      have hlen0 : (ct.set i b).length = 0 := by rw [h]; rfl
      rw [List.length_set] at hlen0
      omega
    have hdec : decryptPayload A
        { (envelopeRecord A pid p mk e).payloadPart with
            payload_ct := hexEncode (ct.set i b) } e.dek
        = match A.dec e.dek (hexDecode (hexEncode e.payloadNonce))
            (hexDecode (hexEncode (ct.set i b)))
            (hexDecode (hexEncode (A.enc e.dek e.payloadNonce pb).2)) with
          | none => .error .decryptFailed
          | some decrypted =>
            match jsonParse (bytesToStr decrypted) with
            | none => .error .decryptFailed
            | some v => .ok v := by
      apply decryptPayload_eq_dec A _ e.dek hvn
      · apply validateHex_hexEncode
        · intro h
          have hl := A.enc_tag_length e.dek e.payloadNonce pb
          rw [h] at hl
          simp [TAG_LENGTH] at hl
        · exact A.enc_tag_length _ _ _
      · exact isHexString_hexEncode hct2ne
    rw [show generateDEK e = e.dek from rfl]
    rw [show hexDecode (envelopeRecord A pid p mk e).payload_ct = ct from hct2]
    rw [hdec, hexDecode_hexEncode hpbn, hexDecode_hexEncode hct2b,
      hexDecode_hexEncode (A.enc_tag_bytes _ _ _)]
    have hcond : (A.enc e.dek e.payloadNonce pb).2 ≠ A.mac e.dek e.payloadNonce (ct.set i b) := by
      rw [A.enc_tag_eq]
      exact fun hcontra => hmac hcontra.symm
    rw [show A.dec e.dek e.payloadNonce (ct.set i b) (A.enc e.dek e.payloadNonce pb).2
      = none from if_neg hcond]
  · intro tag2 hhex hlen hdiff
    have hdec : unwrapDEK A
        { (envelopeRecord A pid p mk e).dekPart with dek_wrap_tag := tag2 } mk
        = match A.dec mk (hexDecode (hexEncode e.wrapNonce)) (hexDecode (hexEncode wct))
            (hexDecode tag2) with
          | some d => .ok d
          | none => .error .unwrapFailed :=
      unwrapDEK_eq_dec A _ mk hmk hvwn (validateHex_of_valid hhex hlen) hwcthex
    rw [hdec, hexDecode_hexEncode hwb, hexDecode_hexEncode hwctb]
    have hcond : hexDecode tag2 ≠ A.mac mk e.wrapNonce wct := by
      intro hcontra
      apply hdiff
      show hexDecode tag2 = hexDecode (envelopeRecord A pid p mk e).dek_wrap_tag
      rw [hcontra]
      show A.mac mk e.wrapNonce wct = hexDecode (hexEncode (A.enc mk e.wrapNonce e.dek).2)
      rw [hexDecode_hexEncode (A.enc_tag_bytes _ _ _), A.enc_tag_eq]
    rw [show A.dec mk e.wrapNonce wct (hexDecode tag2) = none from if_neg hcond]
  · intro hkey
    have hwct2 : hexDecode (envelopeRecord A pid p mk e).dek_wrapped = wct := by
      show hexDecode (hexEncode wct) = wct
      exact hexDecode_hexEncode hwctb
    rw [hwct2] at hkey
    have hdec : unwrapDEK A (envelopeRecord A pid p mk e).dekPart mk2
        = match A.dec mk2 (hexDecode (hexEncode e.wrapNonce)) (hexDecode (hexEncode wct))
            (hexDecode (hexEncode (A.enc mk e.wrapNonce e.dek).2)) with
          | some d => .ok d
          | none => .error .unwrapFailed := by
      apply unwrapDEK_eq_dec A _ mk2 hmk2 hvwn
      · apply validateHex_hexEncode
        · intro h
          have hl := A.enc_tag_length mk e.wrapNonce e.dek
          rw [h] at hl
          simp [TAG_LENGTH] at hl
        · exact A.enc_tag_length _ _ _
      · exact hwcthex
    rw [hdec, hexDecode_hexEncode hwb, hexDecode_hexEncode hwctb,
      hexDecode_hexEncode (A.enc_tag_bytes _ _ _)]
    have hcond : (A.enc mk e.wrapNonce e.dek).2 ≠ A.mac mk2 e.wrapNonce wct := by
      rw [A.enc_tag_eq, ← hwctdef]
      exact fun hcontra => hkey hcontra.symm
    rw [show A.dec mk2 e.wrapNonce wct (A.enc mk e.wrapNonce e.dek).2 = none from
      if_neg hcond]

/-- Witness for C2 (amended) at the toy cipher, payload `1`, the zero
master key, an all-ones second key and the zero draws. -/
theorem C2_tamper_detection_witness :
    ∃ R, encryptEnvelope toyGCM "user_123" (.jnum 1) zeroMasterKey e0 = .ok R ∧
      (∀ tag2 : String, isHexString tag2 = true → tag2.length = TAG_LENGTH * 2 →
        hexDecode tag2 ≠ hexDecode R.payload_tag →
        decryptPayload toyGCM { R.payloadPart with payload_tag := tag2 } (generateDEK e0)
          = .error .decryptFailed) ∧
      (∀ i b : Nat, i < (hexDecode R.payload_ct).length → b < 256 →
        toyGCM.mac e0.dek e0.payloadNonce ((hexDecode R.payload_ct).set i b)
            ≠ toyGCM.mac e0.dek e0.payloadNonce (hexDecode R.payload_ct) →
        decryptPayload toyGCM
          { R.payloadPart with payload_ct := hexEncode ((hexDecode R.payload_ct).set i b) }
          (generateDEK e0) = .error .decryptFailed) ∧
      (∀ tag2 : String, isHexString tag2 = true → tag2.length = TAG_LENGTH * 2 →
        hexDecode tag2 ≠ hexDecode R.dek_wrap_tag →
        unwrapDEK toyGCM { R.dekPart with dek_wrap_tag := tag2 } zeroMasterKey
          = .error .unwrapFailed) ∧
      (toyGCM.mac (List.replicate 32 1) e0.wrapNonce (hexDecode R.dek_wrapped)
          ≠ toyGCM.mac zeroMasterKey e0.wrapNonce (hexDecode R.dek_wrapped) →
        unwrapDEK toyGCM R.dekPart (List.replicate 32 1) = .error .unwrapFailed) :=
  C2_tamper_detection toyGCM "user_123" (.jnum 1) zeroMasterKey (List.replicate 32 1) e0
    (by decide) (by decide) (by decide) (by decide) (by decide)

/-- Counterexample to C6 as stated: two distinct 16-byte draws from the
secure random source (`e0.idBytes` and `e6.idBytes`) yield records with
the same id, so the id does not carry 128 bits of randomness — the
UUID v4 masking discards six bits. -/
theorem C6_id_randomness_cex :
    e0.idBytes ≠ e6.idBytes ∧
    encryptEnvelope toyGCM "user_123" (.jnum 1) zeroMasterKey e0 = .ok R0 ∧
    encryptEnvelope toyGCM "user_123" (.jnum 1) zeroMasterKey e6 = .ok R0 :=
  ⟨by decide, by rfl, by rfl⟩

/-- Claim C6 (amended): the id of every record returned by
`encryptEnvelope` is `randomUUID` of the 16 fresh random bytes — not
derived from `partyId`, payload, master key or any other record
content — and it carries exactly 122 bits of that randomness: two draws
produce the same id precisely when they agree after the UUID v4
version/variant masking. -/
theorem C6_id_randomness (A : GCM) (pid : String) (p : Json) (mk : Bytes)
    (e : Entropy) (r1 r2 : Bytes) (hmk : mk.length = KEY_LENGTH)
    (h1 : r1.length = 16) (h2 : r2.length = 16)
    (hb1 : ∀ x ∈ r1, x < 256) (hb2 : ∀ x ∈ r2, x < 256) :
    (∀ R, encryptEnvelope A pid p mk e = .ok R → R.id = randomUUID e.idBytes) ∧
    (randomUUID r1 = randomUUID r2 ↔ uuidSetBits r1 = uuidSetBits r2) := by
  constructor
  · intro R h
    rw [encryptEnvelope_ok A pid p e hmk] at h
    cases h
    rfl
  · exact randomUUID_eq_iff h1 h2 hb1 hb2

/-- Witness for C6 (amended) at the toy cipher, the zero draws and the
concrete byte draws of `e0` and `e1`. -/
theorem C6_id_randomness_witness :
    (∀ R, encryptEnvelope toyGCM "user_123" payloadUSD zeroMasterKey e0 = .ok R →
      R.id = randomUUID e0.idBytes) ∧
    (randomUUID e0.idBytes = randomUUID e1.idBytes ↔
      uuidSetBits e0.idBytes = uuidSetBits e1.idBytes) :=
  C6_id_randomness toyGCM "user_123" payloadUSD zeroMasterKey e0 e0.idBytes e1.idBytes
    (by decide) (by decide) (by decide) (by decide) (by decide)

/-- Counterexample to C7 as stated: the draws `e0` and `e6` are distinct
randomness, yet the two calls return identical records — equal id, equal
nonces, equal ciphertext and tags — so distinct randomness alone does
not make the fields differ. -/
theorem C7_fresh_randomness_cex :
    e0.idBytes ≠ e6.idBytes ∧
    encryptEnvelope toyGCM "user_123" (.jnum 1) zeroMasterKey e0
      = encryptEnvelope toyGCM "user_123" (.jnum 1) zeroMasterKey e6 :=
  ⟨by decide, by rfl⟩

/-- Claim C7 (amended): two `encryptEnvelope` calls with identical
`(partyId, payload, masterKey)` and independent draws produce records
with different ids whenever the masked UUID bytes differ, different
nonce fields whenever the drawn nonces differ, and different
ciphertext/tag pairs whenever the cipher outputs at the drawn keys and
nonces differ; in every case both records unwrap and decrypt back to
the same original payload. -/
theorem C7_fresh_randomness (A : GCM) (pid : String) (p q : Json) (mk : Bytes)
    (ea eb : Entropy) (hmk : mk.length = KEY_LENGTH) (hea : ea.wf) (heb : eb.wf)
    (hpb : ∀ b ∈ strToBytes (jsonStringify p), b < 256)
    (hne : strToBytes (jsonStringify p) ≠ [])
    (hrt : jsonParse (jsonStringify p) = some q) :
    ∃ Ra Rb, encryptEnvelope A pid p mk ea = .ok Ra ∧
      encryptEnvelope A pid p mk eb = .ok Rb ∧
      (uuidSetBits ea.idBytes ≠ uuidSetBits eb.idBytes → Ra.id ≠ Rb.id) ∧
      (ea.payloadNonce ≠ eb.payloadNonce → Ra.payload_nonce ≠ Rb.payload_nonce) ∧
      (ea.wrapNonce ≠ eb.wrapNonce → Ra.dek_wrap_nonce ≠ Rb.dek_wrap_nonce) ∧
      (A.enc ea.dek ea.payloadNonce (strToBytes (jsonStringify p))
          ≠ A.enc eb.dek eb.payloadNonce (strToBytes (jsonStringify p)) →
        (Ra.payload_ct, Ra.payload_tag) ≠ (Rb.payload_ct, Rb.payload_tag)) ∧
      (unwrapDEK A Ra.dekPart mk = .ok (generateDEK ea) ∧
        decryptPayload A Ra.payloadPart (generateDEK ea) = .ok q) ∧
      (unwrapDEK A Rb.dekPart mk = .ok (generateDEK eb) ∧
        decryptPayload A Rb.payloadPart (generateDEK eb) = .ok q) := by
  obtain ⟨hail, haib, hadl, hadb, hapl, hapb, hawl, hawb⟩ := hea
  obtain ⟨hbil, hbib, hbdl, hbdb, hbpl, hbpb, hbwl, hbwb⟩ := heb
  refine ⟨envelopeRecord A pid p mk ea, envelopeRecord A pid p mk eb,
    encryptEnvelope_ok A pid p ea hmk, encryptEnvelope_ok A pid p eb hmk,
    ?_, ?_, ?_, ?_, ?_, ?_⟩
  · intro hmask hid
    exact hmask ((randomUUID_eq_iff hail hbil haib hbib).mp hid)
  · intro hn heq
    exact hn (hexEncode_inj hapb hbpb heq)
  · intro hn heq
    exact hn (hexEncode_inj hawb hbwb heq)
  · intro henc heq
    apply henc
    have hctEq : hexEncode (A.enc ea.dek ea.payloadNonce (strToBytes (jsonStringify p))).1
        = hexEncode (A.enc eb.dek eb.payloadNonce (strToBytes (jsonStringify p))).1 :=
      congrArg Prod.fst heq
    have htagEq : hexEncode (A.enc ea.dek ea.payloadNonce (strToBytes (jsonStringify p))).2
        = hexEncode (A.enc eb.dek eb.payloadNonce (strToBytes (jsonStringify p))).2 :=
      congrArg Prod.snd heq
    have hc1 : (A.enc ea.dek ea.payloadNonce (strToBytes (jsonStringify p))).1
        = (A.enc eb.dek eb.payloadNonce (strToBytes (jsonStringify p))).1 :=
      hexEncode_inj (A.enc_ct_bytes hpb) (A.enc_ct_bytes hpb) hctEq
    have hc2 : (A.enc ea.dek ea.payloadNonce (strToBytes (jsonStringify p))).2
        = (A.enc eb.dek eb.payloadNonce (strToBytes (jsonStringify p))).2 :=
      hexEncode_inj
        (A.enc_tag_bytes ea.dek ea.payloadNonce (strToBytes (jsonStringify p)))
        (A.enc_tag_bytes eb.dek eb.payloadNonce (strToBytes (jsonStringify p))) htagEq
    exact Prod.ext hc1 hc2
  · exact ⟨unwrapDEK_envelope A pid p hmk
      ⟨hail, haib, hadl, hadb, hapl, hapb, hawl, hawb⟩, by
      rw [show generateDEK ea = ea.dek from rfl,
        decryptPayload_envelope A pid p mk
          ⟨hail, haib, hadl, hadb, hapl, hapb, hawl, hawb⟩ hpb hne, hrt]⟩
  · exact ⟨unwrapDEK_envelope A pid p hmk
      ⟨hbil, hbib, hbdl, hbdb, hbpl, hbpb, hbwl, hbwb⟩, by
      rw [show generateDEK eb = eb.dek from rfl,
        decryptPayload_envelope A pid p mk
          ⟨hbil, hbib, hbdl, hbdb, hbpl, hbpb, hbwl, hbwb⟩ hpb hne, hrt]⟩

/-- Witness for C7 (amended) at the toy cipher, payload `1`, the zero
master key and the distinct draws `e0` and `e1`. -/
theorem C7_fresh_randomness_witness :
    ∃ Ra Rb, encryptEnvelope toyGCM "user_123" (.jnum 1) zeroMasterKey e0 = .ok Ra ∧
      encryptEnvelope toyGCM "user_123" (.jnum 1) zeroMasterKey e1 = .ok Rb ∧
      (uuidSetBits e0.idBytes ≠ uuidSetBits e1.idBytes → Ra.id ≠ Rb.id) ∧
      (e0.payloadNonce ≠ e1.payloadNonce → Ra.payload_nonce ≠ Rb.payload_nonce) ∧
      (e0.wrapNonce ≠ e1.wrapNonce → Ra.dek_wrap_nonce ≠ Rb.dek_wrap_nonce) ∧
      (toyGCM.enc e0.dek e0.payloadNonce (strToBytes (jsonStringify (.jnum 1)))
          ≠ toyGCM.enc e1.dek e1.payloadNonce (strToBytes (jsonStringify (.jnum 1))) →
        (Ra.payload_ct, Ra.payload_tag) ≠ (Rb.payload_ct, Rb.payload_tag)) ∧
      (unwrapDEK toyGCM Ra.dekPart zeroMasterKey = .ok (generateDEK e0) ∧
        decryptPayload toyGCM Ra.payloadPart (generateDEK e0) = .ok (.jnum 1)) ∧
      (unwrapDEK toyGCM Rb.dekPart zeroMasterKey = .ok (generateDEK e1) ∧
        decryptPayload toyGCM Rb.payloadPart (generateDEK e1) = .ok (.jnum 1)) :=
  C7_fresh_randomness toyGCM "user_123" (.jnum 1) (.jnum 1) zeroMasterKey e0 e1
    (by decide) (by decide) (by decide) (by decide) (by decide) (by rfl)

end Mirfa
